import Mathlib

/-
Verification of the Super Productivity dashboard's data pipeline
(`r_spdash/io/processors.py`, `r_spdash/io/data_loader.py`,
`r_spdash/viz/plots.py`, `r_spdash/viz/color_sync.py`).

Python numbers that arise from dividing integer millisecond counts are
modelled as rationals (the divisions are exact in the inputs considered,
so `ℚ` is a faithful model of the float arithmetic); JSON entity dicts
are modelled as association lists in insertion order, with dict-key
uniqueness stated as a hypothesis where a proof needs it.
-/

namespace SPDash

/-- Raw task entity as stored under `task.entities` of the backup JSON.
Only the fields read by `normalize_tasks` and `build_time_by_day`
(`io/processors.py`) are carried.  `none` models an absent or JSON-null
optional field; `subTaskIds` collapses absent and `[]` (Python
`task.get('subTaskIds')` is falsy for both).  Millisecond quantities are
naturals, as in the source data. -/
structure RawTask where
  id : String
  title : String
  isDone : Bool
  timeSpent : ℕ
  timeEstimate : Option ℕ
  created : ℕ
  dueDay : Option String
  doneOn : Option ℕ
  projectId : String
  notes : Option String
  tagIds : Option (List String)
  subTaskIds : List String
  timeSpentOnDay : Option (List (String × ℕ))
deriving DecidableEq

/-- One row of the normalized task table built by `normalize_tasks`. -/
structure NTask where
  id : String
  title : String
  isDone : Bool
  timeSpent : ℚ
  timeEstimate : Option ℚ
  created : ℚ
  dueDay : Option String
  doneOn : Option ℚ
  projectId : String
  notes : String
  tagIds : List String
  is_leaf : Bool
deriving DecidableEq

/-- Normalization of a single task entity, following the row built in
`normalize_tasks` (`io/processors.py` lines 20-35).  Python truthiness:
`task['timeEstimate'] / 1000 / 60 if task['timeEstimate'] else None`
maps both `null` and `0` to `None`; likewise for `doneOn`.
`datetime.fromtimestamp(ms / 1000)` is modelled by the epoch-second
rational. -/
def normalizeTask (t : RawTask) : NTask :=
  { id := t.id
    title := t.title
    isDone := t.isDone
    timeSpent := (t.timeSpent : ℚ) / 1000 / 60
    timeEstimate :=
      match t.timeEstimate with
      | some v => if v ≠ 0 then some ((v : ℚ) / 1000 / 60) else none
      | none => none
    created := (t.created : ℚ) / 1000
    dueDay := t.dueDay
    doneOn :=
      match t.doneOn with
      | some v => if v ≠ 0 then some ((v : ℚ) / 1000) else none
      | none => none
    projectId := t.projectId
    notes := t.notes.getD ""
    tagIds := t.tagIds.getD []
    is_leaf := t.subTaskIds.isEmpty }

/-- The task-entity collection is an association list (dict key, entity),
in dict insertion order.  `normalize_tasks` maps each entity to a row. -/
def normalize_tasks (entities : List (String × RawTask)) : List NTask :=
  entities.map (fun p => normalizeTask p.2)

/-- Raw project entity: the fields read by `normalize_projects` and
`ColorIconSync`.  `title`/`icon` are `none` when the key is absent
(Python `project.get('title', '')` / `project.get('icon', '')`). -/
structure RawTheme where
  primary : Option String
deriving DecidableEq

structure RawProject where
  id : String
  title : Option String
  theme : Option RawTheme
  icon : Option String
deriving DecidableEq

/-- One row of the normalized project table (`normalize_projects`).
The source reads `proj['id']` and `proj['title']` directly, so a project
fed to it must have a title; the `.getD ""` mirrors the dict default
used everywhere else a title is read. -/
structure NProject where
  id : String
  title : String
deriving DecidableEq

def normalize_projects (entities : List (String × RawProject)) : List NProject :=
  entities.map (fun p => { id := p.2.id, title := p.2.title.getD "" })

/-- Row of the merged task/project frame
(`df_tasks.merge(df_projects, left_on='projectId', right_on='id',
suffixes=('', '_project'))`, `dashboard_script.py` line 54): an inner
join keeping the task columns plus the project's `id`/`title` under the
`_project` suffix.  Pandas emits one row per (task, matching project)
pair, left order outer, right order inner. -/
structure MTask where
  task : NTask
  id_project : String
  title_project : String
deriving DecidableEq

def mergeTasksProjects (dfTasks : List NTask) (dfProjects : List NProject) :
    List MTask :=
  dfTasks.flatMap (fun t =>
    (dfProjects.filter (fun p => p.id = t.projectId)).map
      (fun p => { task := t, id_project := p.id, title_project := p.title }))

/-- Serial day number of a civil date, counted from 0000-03-01
(Howard Hinnant's `days_from_civil`, valid for the Gregorian dates the
backup contains).  This models the calendar-point value
`pd.to_datetime("YYYY-MM-DD")` resolves to; two date strings denote the
same day exactly when their serials agree. -/
def daysFromCivil (y m d : ℕ) : ℕ :=
  let yy := if m ≤ 2 then y - 1 else y
  let era := yy / 400
  let yoe := yy % 400
  let mp := if 2 < m then m - 3 else m + 9
  let doy := (153 * mp + 2) / 5 + d - 1
  let doe := yoe * 365 + yoe / 4 - yoe / 100 + doy
  era * 146097 + doe

/-- Day-of-week name of a serial day, as `pandas` `Series.dt.day_name`
reports it.  Day 0 (0000-03-01 Gregorian) was a Wednesday. -/
def weekdayName (n : ℕ) : String :=
  [("Wednesday" : String), "Thursday", "Friday", "Saturday", "Sunday",
   "Monday", "Tuesday"].getD (n % 7) ""

/-- Split of a character list at `'-'` separators (the `"-"` split a
`"YYYY-MM-DD"` parse performs). -/
def splitDash : List Char → List (List Char)
  | [] => [[]]
  | c :: rest =>
    match splitDash rest with
    | [] => [[c]]
    | h :: t => if c = '-' then [] :: h :: t else (c :: h) :: t

/-- Decimal value of a digit string. -/
def digitsVal (cs : List Char) : ℕ :=
  cs.foldl (fun n c => n * 10 + (c.toNat - 48)) 0

/-- Parse of a `"YYYY-MM-DD"` day key into its serial day
(`pd.to_datetime(day)`). -/
def parseDate (s : String) : ℕ :=
  match (splitDash s.data).map digitsVal with
  | [y, m, d] => daysFromCivil y m d
  | _ => 0

/-- Row of the day×project time table returned by `build_time_by_day`:
columns `['date', 'project', 'minutes']`. -/
structure Row where
  date : ℕ
  project : String
  minutes : ℚ
deriving DecidableEq

/-- Dict lookup in the raw `task.entities` collection
(`data['task']['entities'][task['id']]`); dict keys are unique, so the
first hit is the entry. -/
def lookupEnt (entities : List (String × RawTask)) (i : String) : Option RawTask :=
  (entities.find? (fun p => p.1 = i)).map (·.2)

/-- Nested accumulator `{date: {project: minutes}}` of `build_time_by_day`
(`defaultdict(lambda: defaultdict(float))`), as an association list in
first-touch order, matching Python dict insertion order. -/
abbrev DayAcc := List (String × List (String × ℚ))

def addMinutesInner (ps : List (String × ℚ)) (proj : String) (m : ℚ) :
    List (String × ℚ) :=
  match ps with
  | [] => [(proj, m)]
  | (p, v) :: rest =>
      if p = proj then (p, v + m) :: rest else (p, v) :: addMinutesInner rest proj m

def addMinutes (acc : DayAcc) (day proj : String) (m : ℚ) : DayAcc :=
  match acc with
  | [] => [(day, [(proj, m)])]
  | (d, ps) :: rest =>
      if d = day then (d, addMinutesInner ps proj m) :: rest
      else (d, ps) :: addMinutes rest day proj m

/-- Inner loop of `build_time_by_day`: fold one leaf task's
`timeSpentOnDay` items into the accumulator, converting each
millisecond count to minutes. -/
def addTaskDays (acc : DayAcc) (proj : String) (days : List (String × ℕ)) : DayAcc :=
  days.foldl (fun a dm => addMinutes a dm.1 proj ((dm.2 : ℚ) / 1000 / 60)) acc

/-- Body of the outer loop of `build_time_by_day`: look the row's raw
entity up by `task['id']` and, when a `timeSpentOnDay` key is present,
accumulate its items.  (On data produced by the pipeline the lookup
always succeeds; Python would raise `KeyError` otherwise, modelled by
skipping, which no theorem below relies on.) -/
def buildStep (entities : List (String × RawTask)) (acc : DayAcc) (t : MTask) :
    DayAcc :=
  match lookupEnt entities t.task.id with
  | some raw =>
      match raw.timeSpentOnDay with
      | some days => addTaskDays acc t.title_project days
      | none => acc
  | none => acc

/-- Outer loop of `build_time_by_day` (`io/processors.py` lines 69-76):
iterate the leaf rows of the merged frame only. -/
def buildDayAcc (dfTasks : List MTask) (entities : List (String × RawTask)) :
    DayAcc :=
  (dfTasks.filter (fun t => t.task.is_leaf)).foldl (buildStep entities) []

/-- Flattening of the accumulator into the output rows
(`io/processors.py` lines 79-84), with `pd.to_datetime` applied to the
day key. -/
def build_time_by_day (dfTasks : List MTask) (entities : List (String × RawTask)) :
    List Row :=
  (buildDayAcc dfTasks entities).flatMap
    (fun dp => dp.2.map (fun pm => { date := parseDate dp.1, project := pm.1, minutes := pm.2 }))

/-- Sum of the `minutes` column of a day×project table. -/
def totalMinutes (rows : List Row) : ℚ :=
  (rows.map (·.minutes)).sum

/-- Millisecond total of one raw task's `timeSpentOnDay` map, in minutes
(each value divided by 60,000), as the spec's conservation property
counts it. -/
def taskDayTotal (t : RawTask) : ℚ :=
  ((t.timeSpentOnDay.getD []).map (fun dm => (dm.2 : ℚ) / 60000)).sum

/-- Grand total held by the nested day accumulator. -/
def accTotal (acc : DayAcc) : ℚ :=
  (acc.map (fun dp => (dp.2.map (·.2)).sum)).sum

theorem innerTotal_addMinutesInner (ps : List (String × ℚ)) (p : String) (m : ℚ) :
    ((addMinutesInner ps p m).map (·.2)).sum = (ps.map (·.2)).sum + m := by
  induction ps with
  | nil => simp [addMinutesInner]
  | cons hd tl ih =>
    obtain ⟨q, v⟩ := hd
    simp only [addMinutesInner]
    split
    · simp only [List.map_cons, List.sum_cons]; ring
    · simp only [List.map_cons, List.sum_cons, ih]; ring

theorem accTotal_addMinutes (acc : DayAcc) (d p : String) (m : ℚ) :
    accTotal (addMinutes acc d p m) = accTotal acc + m := by
  induction acc with
  | nil => simp [addMinutes, accTotal]
  | cons hd tl ih =>
    obtain ⟨d0, ps⟩ := hd
    simp only [addMinutes]
    split
    · simp only [accTotal, List.map_cons, List.sum_cons,
        innerTotal_addMinutesInner]
      ring
    · simp only [accTotal, List.map_cons, List.sum_cons] at ih ⊢
      rw [ih]; ring

theorem accTotal_addTaskDays (days : List (String × ℕ)) :
    ∀ (acc : DayAcc) (p : String),
      accTotal (addTaskDays acc p days)
        = accTotal acc + (days.map (fun dm => (dm.2 : ℚ) / 1000 / 60)).sum := by
  induction days with
  | nil => intro acc p; simp [addTaskDays]
  | cons hd tl ih =>
    intro acc p
    simp only [addTaskDays, List.foldl_cons] at *
    rw [ih (addMinutes acc hd.1 p ((hd.2 : ℚ) / 1000 / 60)) p,
      accTotal_addMinutes]
    simp only [List.map_cons, List.sum_cons]
    ring

theorem totalMinutes_flat (acc : DayAcc) :
    totalMinutes (acc.flatMap
      (fun dp => dp.2.map
        (fun pm => ({ date := parseDate dp.1, project := pm.1, minutes := pm.2 } : Row))))
      = accTotal acc := by
  induction acc with
  | nil => simp [totalMinutes, accTotal]
  | cons hd tl ih =>
    simp only [List.flatMap_cons, totalMinutes, accTotal, List.map_append,
      List.sum_append, List.map_cons, List.sum_cons, List.map_map] at ih ⊢
    rw [ih]
    congr 1

/-- Contribution of one raw task entity to the accumulator total:
its `timeSpentOnDay` values in minutes, or nothing when the key is
absent. -/
def contribMs (raw : RawTask) : ℚ :=
  match raw.timeSpentOnDay with
  | some days => (days.map (fun dm => (dm.2 : ℚ) / 1000 / 60)).sum
  | none => 0

def contribution (entities : List (String × RawTask)) (t : NTask) : ℚ :=
  match lookupEnt entities t.id with
  | some raw => contribMs raw
  | none => 0

theorem accTotal_buildStep (entities : List (String × RawTask)) (acc : DayAcc)
    (t : MTask) :
    accTotal (buildStep entities acc t) = accTotal acc + contribution entities t.task := by
  simp only [buildStep, contribution]
  cases lookupEnt entities t.task.id with
  | none => simp
  | some raw =>
    cases hrw : raw.timeSpentOnDay with
    | none => simp [contribMs, hrw]
    | some days => simp [contribMs, hrw, accTotal_addTaskDays]

theorem accTotal_foldl (entities : List (String × RawTask)) :
    ∀ (rows : List MTask) (acc : DayAcc),
      accTotal (rows.foldl (buildStep entities) acc)
        = accTotal acc + ((rows.map (fun m => contribution entities m.task)).sum) := by
  intro rows
  induction rows with
  | nil => intro acc; simp
  | cons hd tl ih =>
    intro acc
    simp only [List.foldl_cons, List.map_cons, List.sum_cons]
    rw [ih, accTotal_buildStep]
    ring

theorem totalMinutes_build (dfTasks : List MTask)
    (entities : List (String × RawTask)) :
    totalMinutes (build_time_by_day dfTasks entities)
      = (((dfTasks.filter (fun t => t.task.is_leaf)).map
          (fun m => contribution entities m.task)).sum) := by
  unfold build_time_by_day buildDayAcc
  rw [totalMinutes_flat, accTotal_foldl]
  simp [accTotal]

/-- With no duplicate project identifiers, the projects matching a given
identifier form at most a singleton; with a referencing task they form
exactly one. -/
theorem filter_proj_singleton (dfProjects : List NProject) (x : String)
    (hnodup : (dfProjects.map NProject.id).Nodup)
    (hex : ∃ p ∈ dfProjects, p.id = x) :
    ∃ q, dfProjects.filter (fun p => p.id = x) = [q] := by
  induction dfProjects with
  | nil => simp at hex
  | cons hd tl ih =>
    simp only [List.map_cons, List.nodup_cons] at hnodup
    by_cases hhd : hd.id = x
    · refine ⟨hd, ?_⟩
      have htl : tl.filter (fun p => p.id = x) = [] := by
        apply List.filter_eq_nil_iff.mpr
        intro p hp hpx
        have hpe : p.id = hd.id := by rw [hhd]; simpa using hpx
        have hmm : p.id ∈ tl.map NProject.id := List.mem_map_of_mem NProject.id hp
        rw [hpe] at hmm
        exact hnodup.1 hmm
      simp [List.filter_cons, hhd, htl]
    · have hex' : ∃ p ∈ tl, p.id = x := by
        obtain ⟨p, hp, hpx⟩ := hex
        rcases List.mem_cons.mp hp with h | h
        · exact absurd (h ▸ hpx) hhd
        · exact ⟨p, h, hpx⟩
      obtain ⟨q, hq⟩ := ih hnodup.2 hex'
      refine ⟨q, ?_⟩
      simp [List.filter_cons, hhd, hq]

/-- Under the join hypotheses the merged frame carries each task exactly
once, so a per-task sum over its leaf rows equals the same sum over the
leaf rows of the task table. -/
theorem merge_leaf_sum (dfTasks : List NTask) (dfProjects : List NProject)
    (hnodup : (dfProjects.map NProject.id).Nodup)
    (href : ∀ t ∈ dfTasks, ∃ p ∈ dfProjects, p.id = t.projectId)
    (g : NTask → ℚ) :
    (((mergeTasksProjects dfTasks dfProjects).filter
        (fun m => m.task.is_leaf)).map (fun m => g m.task)).sum
      = ((dfTasks.filter (fun t => t.is_leaf)).map g).sum := by
  induction dfTasks with
  | nil => simp [mergeTasksProjects]
  | cons hd tl ih =>
    have hex : ∃ p ∈ dfProjects, p.id = hd.projectId :=
      href hd (List.mem_cons_self hd tl)
    obtain ⟨q, hq⟩ := filter_proj_singleton dfProjects hd.projectId hnodup hex
    have href' : ∀ t ∈ tl, ∃ p ∈ dfProjects, p.id = t.projectId :=
      fun t ht => href t (List.mem_cons_of_mem hd ht)
    simp only [mergeTasksProjects, List.flatMap_cons, hq, List.map_cons,
      List.map_nil, List.filter_append, List.map_append, List.sum_append] at ih ⊢
    rw [ih href']
    by_cases hleaf : hd.is_leaf
    · simp [hleaf, List.filter_cons]
    · simp [hleaf, List.filter_cons]

/-- Dict lookup of an entity whose key field agrees with its dict key,
in a collection with unique keys, returns that entity. -/
theorem lookupEnt_self (entities : List (String × RawTask))
    (hkeys : (entities.map Prod.fst).Nodup)
    (k : String) (raw : RawTask) (hmem : (k, raw) ∈ entities) :
    lookupEnt entities k = some raw := by
  induction entities with
  | nil => simp at hmem
  | cons hd tl ih =>
    simp only [List.map_cons, List.nodup_cons] at hkeys
    rcases List.mem_cons.mp hmem with h | h
    · subst h
      simp [lookupEnt]
    · have hne : ¬(hd.1 = k) := by
        intro he
        apply hkeys.1
        rw [he]
        exact List.mem_map_of_mem Prod.fst h
      unfold lookupEnt
      rw [List.find?_cons_of_neg]
      · exact ih hkeys.2 h
      · simp [hne]

/-- C1: conservation of aggregated time.  For every input whose tasks all
reference an existing project (with the backup's dict well-formedness:
unique entity keys equal to the `id` fields, unique project ids), the sum
of the `minutes` column over all rows of `build_time_by_day` equals the
sum, over the leaf tasks (tasks with no subtask identifiers), of every
`timeSpentOnDay` value divided by 60,000; non-leaf tasks' own
`timeSpentOnDay` maps contribute nothing, since the right-hand side ranges
over leaf entities only. -/
theorem c1_time_conservation (taskEnts : List (String × RawTask))
    (projEnts : List (String × RawProject))
    (hkey : ∀ p ∈ taskEnts, p.2.id = p.1)
    (hkeys : (taskEnts.map Prod.fst).Nodup)
    (hpids : ((normalize_projects projEnts).map NProject.id).Nodup)
    (href : ∀ t ∈ normalize_tasks taskEnts,
      ∃ p ∈ normalize_projects projEnts, p.id = t.projectId) :
    totalMinutes (build_time_by_day
        (mergeTasksProjects (normalize_tasks taskEnts) (normalize_projects projEnts))
        taskEnts)
      = ((taskEnts.filter (fun p => p.2.subTaskIds = [])).map
          (fun p => taskDayTotal p.2)).sum := by
  rw [totalMinutes_build,
    merge_leaf_sum (normalize_tasks taskEnts) (normalize_projects projEnts)
      hpids href (contribution taskEnts)]
  unfold normalize_tasks
  rw [List.filter_map]
  rw [List.map_map]
  have hfilter :
      taskEnts.filter ((fun t => t.is_leaf) ∘ fun p => normalizeTask p.2)
        = taskEnts.filter (fun p => p.2.subTaskIds = []) := by
    apply List.filter_congr
    intro p _
    simp only [Function.comp, normalizeTask]
    cases p.2.subTaskIds <;> simp
  rw [hfilter]
  refine congrArg List.sum (List.map_congr_left ?_)
  intro p hp
  have hp' : p ∈ taskEnts := List.mem_of_mem_filter hp
  have hleaf : p.2.subTaskIds = [] := by
    have := List.of_mem_filter hp
    simpa using this
  have hk : p.2.id = p.1 := hkey p hp'
  have hlook : lookupEnt taskEnts p.2.id = some p.2 := by
    rw [hk]
    exact lookupEnt_self taskEnts hkeys p.1 p.2 (by simpa using hp')
  simp only [Function.comp, contribution, normalizeTask, hlook]
  cases hd : p.2.timeSpentOnDay with
  | none => simp [contribMs, taskDayTotal, hd]
  | some days =>
    simp only [contribMs, hd, taskDayTotal, Option.getD_some]
    refine congrArg List.sum (List.map_congr_left ?_)
    intro dm _
    rw [div_div]
    norm_num

/-- Concrete input for the C1 witness: one project, one parent task and
one leaf child, each carrying 5,400,000 ms (= 90 min) on 2024-01-01. -/
def c1ChildRaw : RawTask :=
  { id := "t1", title := "child", isDone := false, timeSpent := 5400000
    timeEstimate := none, created := 1704100000000, dueDay := none
    doneOn := none, projectId := "p1", notes := none, tagIds := none
    subTaskIds := [], timeSpentOnDay := some [("2024-01-01", 5400000)] }

def c1ParentRaw : RawTask :=
  { id := "t2", title := "parent", isDone := false, timeSpent := 5400000
    timeEstimate := none, created := 1704100000000, dueDay := none
    doneOn := none, projectId := "p1", notes := none, tagIds := none
    subTaskIds := ["t1"], timeSpentOnDay := some [("2024-01-01", 5400000)] }

def c1ExTasks : List (String × RawTask) :=
  [("t1", c1ChildRaw), ("t2", c1ParentRaw)]

def c1ExProjects : List (String × RawProject) :=
  [("p1", { id := "p1", title := some "Work", theme := none, icon := none })]

/-- Witness for C1 at the concrete input: the hypotheses hold there and
the aggregated total (90 minutes from the leaf child; the parent's own
map is excluded) satisfies the conservation identity. -/
theorem c1_witness :
    totalMinutes (build_time_by_day
        (mergeTasksProjects (normalize_tasks c1ExTasks)
          (normalize_projects c1ExProjects)) c1ExTasks)
      = ((c1ExTasks.filter (fun p => p.2.subTaskIds = [])).map
          (fun p => taskDayTotal p.2)).sum :=
  c1_time_conservation c1ExTasks c1ExProjects (by decide) (by decide)
    (by decide) (by decide)

/-- Splitting a filtered sum by a second predicate. -/
theorem sum_filter_split {α : Type} (val : α → ℚ) (Q R : α → Bool) :
    ∀ l : List α,
      ((l.filter Q).map val).sum
        = ((l.filter (fun x => Q x && R x)).map val).sum
          + ((l.filter (fun x => Q x && !R x)).map val).sum := by
  intro l
  induction l with
  | nil => simp
  | cons hd tl ih =>
    simp only [List.filter_cons]
    cases hq : Q hd <;> cases hr : R hd <;>
      simp [hq, hr, List.map_cons, List.sum_cons, ih] <;> ring

/-- Regrouping lemma: summing, over a complete duplicate-free key list,
the per-key fiber sums that satisfy a key predicate gives the direct
filtered sum over the rows. -/
theorem sum_fibers {α κ : Type} [DecidableEq κ] (key : α → κ) (val : α → ℚ)
    (P : κ → Bool) :
    ∀ (ks : List κ) (l : List α), ks.Nodup → (∀ x ∈ l, key x ∈ ks) →
      ((ks.filter P).map
        (fun k => ((l.filter (fun x => key x = k)).map val).sum)).sum
        = ((l.filter (fun x => P (key x))).map val).sum := by
  intro ks
  induction ks with
  | nil =>
    intro l _ hcov
    have hl : l = [] := by
      cases l with
      | nil => rfl
      | cons a t => exact absurd (hcov a (List.mem_cons_self a t)) (List.not_mem_nil _)
    simp [hl]
  | cons k ks ih =>
    intro l hnodup hcov
    simp only [List.nodup_cons] at hnodup
    have hcov2 : ∀ x ∈ l.filter (fun x => !(key x = k : Bool)), key x ∈ ks := by
      intro x hx
      have hxl := List.mem_of_mem_filter hx
      have hxk := List.of_mem_filter hx
      have hne : key x ≠ k := by simpa using hxk
      rcases List.mem_cons.mp (hcov x hxl) with h | h
      · exact absurd h hne
      · exact h
    have hih := ih (l.filter (fun x => !(key x = k : Bool))) hnodup.2 hcov2
    have hmap :
        (ks.filter P).map
            (fun j => ((l.filter (fun x => key x = j)).map val).sum)
          = (ks.filter P).map
            (fun j => (((l.filter (fun x => !(key x = k : Bool))).filter
              (fun x => key x = j)).map val).sum) := by
      apply List.map_congr_left
      intro j hj
      have hjks : j ∈ ks := List.mem_of_mem_filter hj
      have hjk : j ≠ k := fun he => hnodup.1 (he ▸ hjks)
      have hff : l.filter (fun x => key x = j)
          = (l.filter (fun x => !(key x = k : Bool))).filter
              (fun x => key x = j) := by
        rw [List.filter_filter]
        apply List.filter_congr
        intro x _
        by_cases hxj : key x = j
        · have hxk : ¬(key x = k) := fun he => hjk (by rw [← hxj, he])
          simp [hxj, hxk, hjk]
        · simp [hxj]
      rw [hff]
    rw [sum_filter_split val (fun x => P (key x)) (fun x => key x = k) l]
    simp only [List.filter_cons]
    by_cases hPk : P k = true
    · rw [if_pos hPk]
      simp only [List.map_cons, List.sum_cons]
      have hfk : l.filter (fun x => key x = k)
          = l.filter (fun x => P (key x) && key x = k) := by
        apply List.filter_congr
        intro x _
        by_cases hxk : key x = k
        · simp [hxk, hPk]
        · simp [hxk]
      have hfr : (l.filter (fun x => !(key x = k : Bool))).filter
              (fun x => P (key x))
          = l.filter (fun x => P (key x) && !(key x = k : Bool)) := by
        rw [List.filter_filter]
      rw [hmap]
      have hgoal := hih
      rw [hfr] at hgoal
      rw [hgoal, hfk]
    · rw [if_neg hPk]
      have hPk' : P k = false := by simpa using hPk
      have hzero : l.filter (fun x => P (key x) && key x = k) = [] := by
        apply List.filter_eq_nil_iff.mpr
        intro x _ hx
        simp only [Bool.and_eq_true, decide_eq_true_eq] at hx
        rw [hx.2, hPk'] at hx
        exact Bool.false_ne_true hx.1
      have hfr : (l.filter (fun x => !(key x = k : Bool))).filter
              (fun x => P (key x))
          = l.filter (fun x => P (key x) && !(key x = k : Bool)) := by
        rw [List.filter_filter]
      rw [hmap]
      have hgoal := hih
      rw [hfr] at hgoal
      rw [hgoal, hzero]
      simp

/-- Distinct (date, project) keys of the day table, as produced by
`groupby(['date', 'project'])` in `create_figures`
(`viz/plots.py` line 114).  Pandas sorts group keys; only the key set and
per-key totals feed the mean below, so the order of this list is
irrelevant and first-occurrence order is used. -/
def dailyKeys (rows : List Row) : List (ℕ × String) :=
  (rows.map (fun r => (r.date, r.project))).dedup

/-- Per-(date, project) total of `groupby(['date','project']).sum`. -/
def dailyTotal (rows : List Row) (k : ℕ × String) : ℚ :=
  ((rows.filter (fun r => (r.date, r.project) = k)).map (·.minutes)).sum

/-- Value of the average-per-workday table for one (weekday, project)
cell (`viz/plots.py` lines 114-127): the mean of the daily per-project
totals over the `(date, project)` group rows whose date falls on that
weekday.  An empty group has no row and the `reindex(..., fill_value=0)`
step fills 0, which coincides with the `0 / 0 = 0` convention of `ℚ`. -/
def avgWorkdayVal (rows : List Row) (w p : String) : ℚ :=
  let ks := (dailyKeys rows).filter (fun k => weekdayName k.1 = w ∧ k.2 = p)
  ((ks.map (dailyTotal rows)).sum) / (ks.length : ℚ)

/-- Earliest date in the table (0 for an empty table). -/
def minDate (rows : List Row) : ℕ :=
  match rows.map (·.date) with
  | [] => 0
  | x :: xs => xs.foldl Nat.min x

/-- Latest date in the table (0 for an empty table). -/
def maxDate (rows : List Row) : ℕ :=
  match rows.map (·.date) with
  | [] => 0
  | x :: xs => xs.foldl Nat.max x

/-- All calendar days in the data's date range, inclusive. -/
def calendarRange (rows : List Row) : List ℕ :=
  List.range' (minDate rows) (maxDate rows + 1 - minDate rows)

/-- Claimed average, written from the claim's words (not from the code)
for comparison: total minutes for the project on that weekday divided by
the number of calendar instances of the weekday in the data's date
range. -/
def claimedAvgWorkday (rows : List Row) (w p : String) : ℚ :=
  ((rows.filter (fun r => weekdayName r.date = w ∧ r.project = p)).map
      (·.minutes)).sum
    / (((calendarRange rows).filter (fun d => weekdayName d = w)).length : ℚ)

/-- Concrete counterexample input for C4: project A logs 60 minutes on
Monday 2024-01-01; project B logs 30 on Monday 2024-01-08, so the date
range contains two Mondays but A has rows on only one of them. -/
def c4Rows : List Row :=
  [{ date := parseDate "2024-01-01", project := "A", minutes := 60 },
   { date := parseDate "2024-01-08", project := "B", minutes := 30 }]

/-- C4 counterexample: the code's average for (Monday, A) is 60 (mean
over the one Monday on which A appears), while the claimed average over
the two calendar Mondays of the range would be 30. -/
theorem c4_counterexample :
    avgWorkdayVal c4Rows "Monday" "A" = 60
  ∧ claimedAvgWorkday c4Rows "Monday" "A" = 30
  ∧ avgWorkdayVal c4Rows "Monday" "A" ≠ claimedAvgWorkday c4Rows "Monday" "A" := by
  have pd1 : parseDate "2024-01-01" = 739191 := by decide
  have pd8 : parseDate "2024-01-08" = 739198 := by decide
  have h1 : avgWorkdayVal c4Rows "Monday" "A" = 60 := by
    norm_num [avgWorkdayVal, dailyKeys, dailyTotal, c4Rows, pd1, pd8,
      List.dedup_cons_of_not_mem, List.filter_cons, weekdayName]
    simp
  have h2 : claimedAvgWorkday c4Rows "Monday" "A" = 30 := by
    norm_num [claimedAvgWorkday, calendarRange, minDate, maxDate, c4Rows,
      pd1, pd8, List.range', List.filter_cons, weekdayName]
    simp
    norm_num
  refine ⟨h1, h2, ?_⟩
  rw [h1, h2]
  norm_num

/-- C4 amended: the average-per-workday cell for (weekday, project)
equals the total minutes of that project's rows on that weekday divided
by the number of distinct calendar days of that weekday on which the
project has at least one row in the table — not by the number of
calendar instances of the weekday in the date range. -/
theorem c4_weekday_average (rows : List Row) (w p : String) :
    avgWorkdayVal rows w p
      = ((rows.filter (fun r => weekdayName r.date = w ∧ r.project = p)).map
          (·.minutes)).sum
        / ((((rows.map (fun r => (r.date, r.project))).dedup.filter
            (fun k => weekdayName k.1 = w ∧ k.2 = p)).length) : ℚ) := by
  have hsf := sum_fibers (fun r : Row => (r.date, r.project)) (·.minutes)
    (fun k => decide (weekdayName k.1 = w ∧ k.2 = p))
    ((rows.map (fun r => (r.date, r.project))).dedup) rows
    (List.nodup_dedup _)
    (fun x hx => List.mem_dedup.mpr (List.mem_map_of_mem _ hx))
  rw [show (fun k : ℕ × String => ((rows.filter
      (fun x => (x.date, x.project) = k)).map (·.minutes)).sum)
      = dailyTotal rows from rfl] at hsf
  simp only [avgWorkdayVal, dailyKeys]
  rw [hsf]

/-- C9 amended: task normalization converts `timeSpent` by division by
60,000 unconditionally, and `timeEstimate` by the same division only when
the raw value is present and nonzero; a null or zero `timeEstimate`
normalizes to absent (Python truthiness of `task['timeEstimate']`). -/
theorem c9_duration_conversion (raw : RawTask) :
    (normalizeTask raw).timeSpent = (raw.timeSpent : ℚ) / 60000
  ∧ (∀ v : ℕ, raw.timeEstimate = some v → v ≠ 0 →
      (normalizeTask raw).timeEstimate = some ((v : ℚ) / 60000))
  ∧ (raw.timeEstimate = none ∨ raw.timeEstimate = some 0 →
      (normalizeTask raw).timeEstimate = none) := by
  refine ⟨?_, ?_, ?_⟩
  · simp only [normalizeTask]
    rw [div_div]; norm_num
  · intro v hv hnz
    simp only [normalizeTask, hv, hnz, if_true, ne_eq, not_false_eq_true]
    rw [div_div]; norm_num
  · rintro (h | h) <;> simp [normalizeTask, h]

/-- Concrete counterexample input for C9: a task whose `timeEstimate` is
present with value 0 milliseconds. -/
def c9Raw : RawTask :=
  { id := "t1", title := "zero estimate", isDone := false, timeSpent := 60000
    timeEstimate := some 0, created := 1704100000000, dueDay := none
    doneOn := none, projectId := "p1", notes := none, tagIds := none
    subTaskIds := [], timeSpentOnDay := none }

/-- C9 counterexample: the claim says a present raw `timeEstimate` (here
0) normalizes to the raw value divided by 60,000 (here `some 0`), but the
code normalizes it to absent. -/
theorem c9_counterexample :
    (normalizeTask c9Raw).timeEstimate = none
  ∧ (normalizeTask c9Raw).timeEstimate ≠ some ((0 : ℚ) / 60000) := by
  constructor
  · simp [normalizeTask, c9Raw]
  · simp [normalizeTask, c9Raw]

/-- Concrete input for the C9 witness: an estimate of 120,000 ms. -/
def c9WitnessRaw : RawTask :=
  { id := "t1", title := "two minutes", isDone := false, timeSpent := 60000
    timeEstimate := some 120000, created := 1704100000000, dueDay := none
    doneOn := none, projectId := "p1", notes := none, tagIds := none
    subTaskIds := [], timeSpentOnDay := none }

/-- Witness for C9 at a concrete nonzero estimate: 120,000 ms normalizes
to 2 minutes, and the 60,000 ms `timeSpent` to 1 minute. -/
theorem c9_witness :
    (normalizeTask c9WitnessRaw).timeSpent = ((60000 : ℕ) : ℚ) / 60000
  ∧ (normalizeTask c9WitnessRaw).timeEstimate = some (((120000 : ℕ) : ℚ) / 60000) :=
  ⟨(c9_duration_conversion c9WitnessRaw).1,
   (c9_duration_conversion c9WitnessRaw).2.1 120000 rfl (by decide)⟩

/-- Raw tag entity (`tag.entities`): `create_tags_pie_chart` reads
`v['title']` directly (the backup always carries tag titles), and the
color resolver reads `theme`/`icon` with dict defaults. -/
structure RawTag where
  id : String
  title : String
  theme : Option RawTheme
  icon : Option String
deriving DecidableEq

/-- Python `bool(x) and any(x)` on a tag-id list
(`viz/plots.py` line 203): nonempty and containing at least one truthy
(non-empty) string. -/
def hasTag (ts : List String) : Bool :=
  !ts.isEmpty && ts.any (fun t => !(t == ""))

/-- The tasks feeding the tag chart: `df_tasks[df_tasks['timeSpent'] > 0]`
(`viz/plots.py` line 195). -/
def dfTags (tasks : List NTask) : List NTask :=
  tasks.filter (fun t => 0 < t.timeSpent)

/-- Explosion of the tagged rows
(`df_tags[df_tags['has_tag']].explode('tagIds')`): one (tag-id,
timeSpent) pair per tag of each tagged task, in row order. -/
def taggedPairs (tasks : List NTask) : List (String × ℚ) :=
  ((dfTags tasks).filter (fun t => hasTag t.tagIds)).flatMap
    (fun t => t.tagIds.map (fun tg => (tg, t.timeSpent)))

/-- The `groupby('tagIds')['timeSpent'].sum()` value for one tag id:
the fiber sum over the exploded pairs. -/
def tagTimeAt (tasks : List NTask) (tg : String) : ℚ :=
  (((taggedPairs tasks).filter (fun p => p.1 = tg)).map (·.2)).sum

/-- The group keys of the tag aggregation after the
`tag_time[tag_time['tagIds'].notnull() & (tag_time['tagIds'] != '')]`
row filter: pandas `groupby` sorts its keys, and the empty id is
dropped. -/
def tagKeys (tasks : List NTask) : List String :=
  (List.insertionSort (fun a b : String => a ≤ b)
      ((taggedPairs tasks).map (·.1)).dedup).filter (fun k => !(k == ""))

/-- The `tag_time` table: one (tag id, summed minutes) row per group
key. -/
def tagTimeRows (tasks : List NTask) : List (String × ℚ) :=
  (tagKeys tasks).map (fun k => (k, tagTimeAt tasks k))

/-- The "Untagged" bucket
(`df_tags[~df_tags['has_tag']]['timeSpent'].sum()`,
`viz/plots.py` line 232). -/
def untaggedTime (tasks : List NTask) : ℚ :=
  (((dfTags tasks).filter (fun t => !hasTag t.tagIds)).map (·.timeSpent)).sum

/-- `tag_map[k]` built from `data['tag']['entities']`
(`{k: v['title'] for k, v in ...}`); `none` for an id without a tag
entity (`Series.map` leaves those as NaN). -/
def tagMapLookup (tagEnts : List (String × RawTag)) (k : String) :
    Option String :=
  (tagEnts.find? (fun p => p.1 = k)).map (fun p => p.2.title)

/-- The `tag` column of `tag_time` after id→title mapping
(`viz/plots.py` lines 210-215): when the backup has a `tag` collection
the titles (or NaN, modelled `none`), else the raw ids. -/
def titledRows (dataTag : Option (List (String × RawTag)))
    (tasks : List NTask) : List (Option String × ℚ) :=
  match dataTag with
  | some ents => (tagTimeRows tasks).map (fun p => (tagMapLookup ents p.1, p.2))
  | none => (tagTimeRows tasks).map (fun p => (some p.1, p.2))

/-- The hardcoded exclusion list `excluded_tags = {"Today"}`. -/
def excludedTags : List String := ["Today"]

/-- `all_tags` (`viz/plots.py` line 218): every tag title except the
excluded ones; empty when the backup has no tag collection. -/
def pieLabels (dataTag : Option (List (String × RawTag))) : List String :=
  match dataTag with
  | some ents =>
      (ents.map (fun p => p.2.title)).filter (fun t => !excludedTags.contains t)
  | none => []

/-- `tag_time_dict.get(label, 0)` where
`tag_time_dict = dict(zip(tag_time['tag'], tag_time['timeSpent']))`: a
later row with the same title overwrites an earlier one, NaN (`none`)
keys never match a string label, and a missing label defaults to 0. -/
def tagTimeDictGet (rows : List (Option String × ℚ)) (label : String) : ℚ :=
  match rows.reverse.find? (fun r => r.1 = some label) with
  | some r => r.2
  | none => 0

/-- `pie_values` for the non-synthetic labels
(`viz/plots.py` line 221). -/
def pieValues (dataTag : Option (List (String × RawTag)))
    (tasks : List NTask) : List ℚ :=
  (pieLabels dataTag).map (tagTimeDictGet (titledRows dataTag tasks))

theorem taggedPairs_cons (rest : List NTask) (tk : NTask) :
    taggedPairs (tk :: rest)
      = (if 0 < tk.timeSpent ∧ hasTag tk.tagIds = true
         then tk.tagIds.map (fun tg => (tg, tk.timeSpent)) else [])
        ++ taggedPairs rest := by
  by_cases hts : 0 < tk.timeSpent
  · by_cases hht : hasTag tk.tagIds = true
    · simp [taggedPairs, dfTags, List.filter_cons, hts, hht]
    · simp [taggedPairs, dfTags, List.filter_cons, hts, hht]
  · simp [taggedPairs, dfTags, List.filter_cons, hts]

theorem fiber_sum_map (ts : List String) (v : ℚ) (tg : String) :
    (((ts.map (fun t => (t, v))).filter (fun p => p.1 = tg)).map (·.2)).sum
      = (ts.count tg : ℚ) * v := by
  induction ts with
  | nil => simp
  | cons hd tl ih =>
    by_cases h : hd = tg
    · subst h
      simp only [List.map_cons, List.filter_cons, decide_eq_true_eq, if_true,
        List.count_cons_self, List.sum_cons, ih]
      push_cast
      ring
    · simp only [List.map_cons, List.filter_cons, decide_eq_true_eq]
      rw [List.count_cons_of_ne (Ne.symm h), if_neg h]
      exact ih

theorem tagTimeAt_cons (rest : List NTask) (tk : NTask) (tg : String) :
    tagTimeAt (tk :: rest) tg
      = (if 0 < tk.timeSpent ∧ hasTag tk.tagIds = true
         then (tk.tagIds.count tg : ℚ) * tk.timeSpent else 0)
        + tagTimeAt rest tg := by
  unfold tagTimeAt
  rw [taggedPairs_cons, List.filter_append, List.map_append, List.sum_append]
  by_cases h : 0 < tk.timeSpent ∧ hasTag tk.tagIds = true
  · rw [if_pos h, if_pos h, fiber_sum_map]
  · rw [if_neg h, if_neg h]
    simp

theorem mem_tagKeys (tasks : List NTask) (tg : String) (hne : tg ≠ "")
    (hex : ∃ p ∈ taggedPairs tasks, p.1 = tg) : tg ∈ tagKeys tasks := by
  unfold tagKeys
  apply List.mem_filter.mpr
  refine ⟨?_, by simpa using hne⟩
  apply (List.perm_insertionSort _ _).mem_iff.mpr
  rw [List.mem_dedup]
  obtain ⟨p, hp, hp1⟩ := hex
  exact hp1 ▸ List.mem_map_of_mem _ hp

/-- C2: tag aggregation duplicates rather than divides.  First, the
aggregated total of any tag decomposes task by task, a tagged task with
positive time contributing its full `timeSpent` once per occurrence of
the tag in its tag list; second, every non-empty tag id occurring in the
exploded pairs gets a row carrying that total; third, the claim's
concrete instance: a task with two distinct tags and `timeSpent = 60`
yields 60 for each tag, 120 across tags, and 60 across tasks. -/
theorem c2_tag_duplication (rest : List NTask) (tk : NTask) :
    (∀ tg : String,
      tagTimeAt (tk :: rest) tg
        = (if 0 < tk.timeSpent ∧ hasTag tk.tagIds = true
           then (tk.tagIds.count tg : ℚ) * tk.timeSpent else 0)
          + tagTimeAt rest tg)
  ∧ (∀ tg : String, tg ≠ "" → (∃ p ∈ taggedPairs (tk :: rest), p.1 = tg) →
      (tg, tagTimeAt (tk :: rest) tg) ∈ tagTimeRows (tk :: rest))
  ∧ (∀ a b : String, tk.timeSpent = 60 → tk.tagIds = [a, b] → a ≠ b →
      a ≠ "" → b ≠ "" →
      tagTimeAt [tk] a = 60 ∧ tagTimeAt [tk] b = 60
      ∧ ((tagTimeRows [tk]).map (·.2)).sum = 120
      ∧ (([tk] : List NTask).map (·.timeSpent)).sum = 60) := by
  refine ⟨tagTimeAt_cons rest tk, ?_, ?_⟩
  · intro tg hne hex
    exact List.mem_map.mpr ⟨tg, mem_tagKeys _ tg hne hex, rfl⟩
  · intro a b ht htg hab ha hb
    have hht : hasTag tk.tagIds = true := by
      rw [htg]
      simp [hasTag, ha]
    have hpos : 0 < tk.timeSpent := by rw [ht]; norm_num
    have hpairs : taggedPairs [tk] = [(a, (60 : ℚ)), (b, 60)] := by
      rw [taggedPairs_cons [] tk, if_pos ⟨hpos, hht⟩, htg, ht]
      simp [taggedPairs, dfTags]
    have hta : tagTimeAt [tk] a = 60 := by
      unfold tagTimeAt
      rw [hpairs]
      simp [List.filter_cons, Ne.symm hab]
    have htb : tagTimeAt [tk] b = 60 := by
      unfold tagTimeAt
      rw [hpairs]
      simp [List.filter_cons, hab]
    refine ⟨hta, htb, ?_, by simp [ht]⟩
    have hkeys : tagKeys [tk]
        = (List.insertionSort (fun x y : String => x ≤ y)
            [a, b]).filter (fun k => !(k == "")) := by
      unfold tagKeys
      rw [hpairs]
      congr 1
      congr 1
      rw [show (List.map (·.1) [(a, (60 : ℚ)), (b, 60)]) = [a, b] from rfl]
      rw [List.dedup_cons_of_not_mem (by simpa using hab),
        List.dedup_cons_of_not_mem (List.not_mem_nil b), List.dedup_nil]
    by_cases hle : a ≤ b
    · have : tagKeys [tk] = [a, b] := by
        rw [hkeys]
        simp [List.insertionSort, List.orderedInsert, hle, ha, hb]
      simp [tagTimeRows, this, hta, htb]
      norm_num
    · have : tagKeys [tk] = [b, a] := by
        rw [hkeys]
        simp [List.insertionSort, List.orderedInsert, hle, ha, hb]
      simp [tagTimeRows, this, hta, htb]
      norm_num

/-- Concrete input for the C2 witness: a two-tag task with 60 minutes. -/
def c2Task : NTask :=
  { id := "t1", title := "pair", isDone := false, timeSpent := 60
    timeEstimate := none, created := 0, dueDay := none, doneOn := none
    projectId := "p1", notes := "", tagIds := ["t-alpha", "t-beta"]
    is_leaf := true }

/-- Witness for C2 at the concrete two-tag task: 60 per tag, 120 across
tags, 60 across tasks. -/
theorem c2_witness :
    tagTimeAt [c2Task] "t-alpha" = 60 ∧ tagTimeAt [c2Task] "t-beta" = 60
  ∧ ((tagTimeRows [c2Task]).map (·.2)).sum = 120
  ∧ (([c2Task] : List NTask).map (·.timeSpent)).sum = 60 :=
  (c2_tag_duplication [] c2Task).2.2 "t-alpha" "t-beta" rfl rfl
    (by decide) (by decide) (by decide)

/-- C6: untagged bucketing.  A task whose tag-id list is empty or holds
only empty strings is not `has_tag`, so it adds its whole (non-negative)
`timeSpent` to the "Untagged" bucket and leaves every tag's aggregated
total unchanged; an absent `tagIds` normalizes to the empty list, so the
absent case reduces to the empty case. -/
theorem c6_untagged_bucketing (rest : List NTask) (tk : NTask)
    (hall : ∀ t ∈ tk.tagIds, t = "") (hnn : 0 ≤ tk.timeSpent) :
    untaggedTime (tk :: rest) = tk.timeSpent + untaggedTime rest
  ∧ (∀ tg : String, tagTimeAt (tk :: rest) tg = tagTimeAt rest tg)
  ∧ (∀ raw : RawTask, raw.tagIds = none → (normalizeTask raw).tagIds = []) := by
  have hht : hasTag tk.tagIds = false := by
    unfold hasTag
    have hany : tk.tagIds.any (fun t => !(t == "")) = false := by
      rw [List.any_eq_false]
      intro t ht
      simp [hall t ht]
    rw [hany, Bool.and_false]
  refine ⟨?_, ?_, ?_⟩
  · unfold untaggedTime dfTags
    by_cases hts : 0 < tk.timeSpent
    · simp [List.filter_cons, hts, hht]
    · have h0 : tk.timeSpent = 0 := le_antisymm (not_lt.mp hts) hnn
      simp [List.filter_cons, hts, h0]
  · intro tg
    rw [tagTimeAt_cons]
    have : ¬(0 < tk.timeSpent ∧ hasTag tk.tagIds = true) := by
      rintro ⟨-, h⟩
      rw [hht] at h
      exact Bool.false_ne_true h
    rw [if_neg this, zero_add]
  · intro raw h
    simp [normalizeTask, h]

theorem mem_of_getLast?_eq {α : Type} (l : List α) (a : α)
    (h : l.getLast? = some a) : a ∈ l := by
  have hm := List.mem_getLast?_eq_getLast (l := l) (x := a) (by rw [h]; rfl)
  obtain ⟨hne, rfl⟩ := hm
  exact List.getLast_mem hne

/-- Evaluation of the `tag_time_dict` lookup over title-mapped rows: the
last group key mapping to the label wins, and a label with no such key
yields the 0 default. -/
theorem dictGet_mapped (g : String → Option String) (f : String → ℚ)
    (label : String) (keys : List String) :
    tagTimeDictGet (keys.map (fun k => (g k, f k))) label
      = (match (keys.filter (fun k => g k = some label)).getLast? with
         | some k => f k
         | none => 0) := by
  induction keys using List.reverseRecOn with
  | nil => simp [tagTimeDictGet]
  | append_singleton ks k ih =>
    rw [List.map_append, List.filter_append]
    simp only [List.map_cons, List.map_nil, List.filter_cons, List.filter_nil]
    unfold tagTimeDictGet at ih ⊢
    rw [List.reverse_append]
    simp only [List.reverse_cons, List.reverse_nil, List.nil_append,
      List.cons_append]
    by_cases hk : g k = some label
    · rw [List.find?_cons_of_pos _ (by simpa using hk)]
      rw [if_pos (by simpa using hk)]
      rw [List.getLast?_concat]
    · rw [List.find?_cons_of_neg _ (by simpa using hk)]
      rw [if_neg (by simpa using hk)]
      rw [List.append_nil]
      exact ih

theorem titledRows_eq (ents : List (String × RawTag)) (tasks : List NTask) :
    titledRows (some ents) tasks
      = (tagKeys tasks).map (fun k => (tagMapLookup ents k, tagTimeAt tasks k)) := by
  simp only [titledRows, tagTimeRows, List.map_map]
  rfl

/-- A task with a single tag contributes nothing to any other tag's
aggregated total. -/
theorem tagTimeAt_single_other (rest : List NTask) (tk : NTask)
    (todayId k : String) (htags : tk.tagIds = [todayId]) (hne : k ≠ todayId) :
    tagTimeAt (tk :: rest) k = tagTimeAt rest k := by
  rw [tagTimeAt_cons]
  by_cases h : 0 < tk.timeSpent ∧ hasTag tk.tagIds = true
  · rw [if_pos h, htags]
    simp [List.count_cons, Ne.symm hne]
  · rw [if_neg h, zero_add]

theorem mem_tagKeys_iff (tasks : List NTask) (k : String) :
    k ∈ tagKeys tasks ↔ k ∈ (taggedPairs tasks).map (·.1) ∧ k ≠ "" := by
  unfold tagKeys
  rw [List.mem_filter, (List.perm_insertionSort _ _).mem_iff, List.mem_dedup]
  simp

theorem tagKeys_sorted (tasks : List NTask) :
    (tagKeys tasks).Sorted (fun a b : String => a ≤ b) :=
  List.Pairwise.sublist (List.filter_sublist _) (List.sorted_insertionSort _ _)

theorem tagKeys_nodup (tasks : List NTask) : (tagKeys tasks).Nodup :=
  ((List.perm_insertionSort _ _).nodup_iff.mpr (List.nodup_dedup _)).filter _

/-- Adding a task whose only tag id maps to the "Today" title changes no
fiber of group keys mapping to any other title: the key lists agree even
with pandas' sorted group keys, because both are sorted, duplicate-free
and have the same members. -/
theorem c10_keys_filter_eq (ents : List (String × RawTag))
    (rest : List NTask) (tk : NTask) (todayId label : String)
    (htags : tk.tagIds = [todayId])
    (hlook : tagMapLookup ents todayId = some "Today")
    (hlabel : label ≠ "Today") :
    (tagKeys (tk :: rest)).filter (fun k => tagMapLookup ents k = some label)
      = (tagKeys rest).filter (fun k => tagMapLookup ents k = some label) := by
  refine List.eq_of_perm_of_sorted ?_
    (List.Pairwise.sublist (List.filter_sublist _) (tagKeys_sorted _))
    (List.Pairwise.sublist (List.filter_sublist _) (tagKeys_sorted _))
  apply (List.perm_ext_iff_of_nodup ((tagKeys_nodup _).filter _)
      ((tagKeys_nodup _).filter _)).mpr
  intro k
  simp only [List.mem_filter, mem_tagKeys_iff, decide_eq_true_eq]
  constructor
  · rintro ⟨⟨hmem, hne⟩, hg⟩
    refine ⟨⟨?_, hne⟩, hg⟩
    rw [taggedPairs_cons, List.map_append, List.mem_append] at hmem
    rcases hmem with h | h
    · exfalso
      have hk : k = todayId := by
        by_cases hcond : 0 < tk.timeSpent ∧ hasTag tk.tagIds = true
        · rw [if_pos hcond, htags] at h
          simpa using h
        · rw [if_neg hcond] at h
          simp at h
      rw [hk, hlook] at hg
      exact hlabel (Option.some.inj hg).symm
    · exact h
  · rintro ⟨⟨hmem, hne⟩, hg⟩
    refine ⟨⟨?_, hne⟩, hg⟩
    rw [taggedPairs_cons, List.map_append, List.mem_append]
    exact Or.inr hmem

/-- C10: hardcoded "Today" tag exclusion.  The pie label list never
contains the title "Today"; a positive-time task whose only tag id is the
"Today" tag's id counts as tagged, so the "Untagged" bucket is unchanged
by it; and every pie label's value is also unchanged by it, so the
task's time appears nowhere in the tag chart. -/
theorem c10_today_exclusion (ents : List (String × RawTag))
    (rest : List NTask) (tk : NTask) (todayId : String)
    (hlook : tagMapLookup ents todayId = some "Today")
    (hid : todayId ≠ "")
    (htags : tk.tagIds = [todayId])
    (hpos : 0 < tk.timeSpent) :
    "Today" ∉ pieLabels (some ents)
  ∧ untaggedTime (tk :: rest) = untaggedTime rest
  ∧ ∀ label ∈ pieLabels (some ents),
      tagTimeDictGet (titledRows (some ents) (tk :: rest)) label
        = tagTimeDictGet (titledRows (some ents) rest) label := by
  have hht : hasTag tk.tagIds = true := by
    rw [htags]
    simp [hasTag, hid]
  refine ⟨?_, ?_, ?_⟩
  · intro h
    simp [pieLabels, excludedTags, List.mem_filter] at h
  · unfold untaggedTime dfTags
    simp [List.filter_cons, hpos, hht]
  · intro label hmemlab
    have hlabel : label ≠ "Today" := by
      intro he
      have := List.of_mem_filter hmemlab
      rw [he] at this
      simp [excludedTags] at this
    rw [titledRows_eq, titledRows_eq, dictGet_mapped, dictGet_mapped,
      c10_keys_filter_eq ents rest tk todayId label htags hlook hlabel]
    cases hlast : ((tagKeys rest).filter
        (fun k => tagMapLookup ents k = some label)).getLast? with
    | none => rfl
    | some k =>
      have hkmem := mem_of_getLast?_eq _ _ hlast
      have hg : tagMapLookup ents k = some label := by
        have := List.of_mem_filter hkmem
        simpa using this
      have hkt : k ≠ todayId := by
        intro he
        rw [he, hlook] at hg
        exact hlabel (Option.some.inj hg).symm
      simp only []
      rw [tagTimeAt_single_other rest tk todayId k htags hkt]

/-- Concrete input for the C10 witness: a "Today" tag entity, a second
tag "Work", and a 60-minute task tagged only with the "Today" id. -/
def c10Ents : List (String × RawTag) :=
  [("tid-today", { id := "tid-today", title := "Today", theme := none, icon := none }),
   ("tid-work", { id := "tid-work", title := "Work", theme := none, icon := none })]

def c10Task : NTask :=
  { id := "t3", title := "today only", isDone := false, timeSpent := 60
    timeEstimate := none, created := 0, dueDay := none, doneOn := none
    projectId := "p1", notes := "", tagIds := ["tid-today"], is_leaf := true }

/-- Witness for C10 at the concrete input: the label list has no
"Today", the untagged bucket ignores the task, and the "Work" slice is
unchanged by it. -/
theorem c10_witness :
    "Today" ∉ pieLabels (some c10Ents)
  ∧ untaggedTime [c10Task] = untaggedTime []
  ∧ tagTimeDictGet (titledRows (some c10Ents) [c10Task]) "Work"
      = tagTimeDictGet (titledRows (some c10Ents) []) "Work" := by
  have h := c10_today_exclusion c10Ents [] c10Task "tid-today"
    (by decide) (by decide) rfl (by norm_num [c10Task])
  exact ⟨h.1, h.2.1, h.2.2 "Work" (by decide)⟩

/-- Concrete input for the C6 witness: an untagged 45-minute task. -/
def c6Task : NTask :=
  { id := "t9", title := "untagged", isDone := true, timeSpent := 45
    timeEstimate := none, created := 0, dueDay := none, doneOn := none
    projectId := "p1", notes := "", tagIds := [], is_leaf := true }

/-- Witness for C6 at the concrete untagged task. -/
theorem c6_witness :
    untaggedTime [c6Task] = c6Task.timeSpent + untaggedTime []
  ∧ tagTimeAt [c6Task] "t-alpha" = tagTimeAt [] "t-alpha" :=
  ⟨(c6_untagged_bucketing [] c6Task (by simp [c6Task]) (by norm_num [c6Task])).1,
   (c6_untagged_bucketing [] c6Task (by simp [c6Task])
      (by norm_num [c6Task])).2.1 "t-alpha"⟩

/-- Python dict assignment `m[k] = v`: overwrite in place when the key
exists, else append (insertion order preserved). -/
def dictInsert {β : Type} (m : List (String × β)) (k : String) (v : β) :
    List (String × β) :=
  match m with
  | [] => [(k, v)]
  | (k0, v0) :: rest =>
      if k0 = k then (k0, v) :: rest else (k0, v0) :: dictInsert rest k v

/-- Python `m.get(k)` on a dict built with `dictInsert` (unique keys, so
the first hit is the entry). -/
def lookupDict {β : Type} (m : List (String × β)) (k : String) : Option β :=
  (m.find? (fun p => p.1 = k)).map (·.2)

/-- Python `s.startswith('#')`: the first character is `'#'`. -/
def startsWithHash (s : String) : Bool :=
  match s.data with
  | [] => false
  | c :: _ => c = '#'

/-- `ColorIconSync._extract_primary_color` (`viz/color_sync.py` lines
29-35): the theme's `primary` when it is a non-empty string starting
with `#`, else the default plotly blue.  `none` covers an absent,
null or non-dict `theme` (all of which fall to the default) and an
absent or null `primary`. -/
def extractPrimaryColor (theme : Option RawTheme) : String :=
  match theme with
  | some th =>
      match th.primary with
      | some p => if p ≠ "" ∧ startsWithHash p = true then p else "#636efa"
      | none => "#636efa"
  | none => "#636efa"

/-- The dict-building loop of `_extract_colors_and_icons`: fold the
entities, writing `m[key e] = val e` for each. -/
def dictOfList {α β : Type} (key : α → String) (val : α → β) (l : List α) :
    List (String × β) :=
  l.foldl (fun m e => dictInsert m (key e) (val e)) []

/-- `self.project_colors`: title → extracted primary color. -/
def projectColors (ents : List (String × RawProject)) : List (String × String) :=
  dictOfList (fun p => p.2.title.getD "") (fun p => extractPrimaryColor p.2.theme) ents

/-- `self.project_icons`: title → `project.get('icon', '')`. -/
def projectIcons (ents : List (String × RawProject)) : List (String × String) :=
  dictOfList (fun p => p.2.title.getD "") (fun p => p.2.icon.getD "") ents

/-- `self.tag_colors`. -/
def tagColors (ents : List (String × RawTag)) : List (String × String) :=
  dictOfList (fun p => p.2.title) (fun p => extractPrimaryColor p.2.theme) ents

/-- `self.tag_icons`. -/
def tagIcons (ents : List (String × RawTag)) : List (String × String) :=
  dictOfList (fun p => p.2.title) (fun p => p.2.icon.getD "") ents

def get_project_color (ents : List (String × RawProject)) (name : String) :
    String :=
  (lookupDict (projectColors ents) name).getD "#636efa"

def get_project_icon (ents : List (String × RawProject)) (name : String) :
    String :=
  (lookupDict (projectIcons ents) name).getD "📁"

def get_tag_color (ents : List (String × RawTag)) (name : String) : String :=
  (lookupDict (tagColors ents) name).getD "#636efa"

def get_tag_icon (ents : List (String × RawTag)) (name : String) : String :=
  (lookupDict (tagIcons ents) name).getD "🏷️"

def get_project_display_name (ents : List (String × RawProject))
    (name : String) : String :=
  get_project_icon ents name ++ " " ++ name

def get_tag_display_name (ents : List (String × RawTag)) (name : String) :
    String :=
  get_tag_icon ents name ++ " " ++ name

theorem lookupDict_dictInsert_self {β : Type} (m : List (String × β))
    (k : String) (v : β) : lookupDict (dictInsert m k v) k = some v := by
  induction m with
  | nil => simp [dictInsert, lookupDict]
  | cons hd tl ih =>
    obtain ⟨k0, v0⟩ := hd
    by_cases h : k0 = k
    · subst h
      simp [dictInsert, lookupDict]
    · simp only [dictInsert, if_neg h]
      unfold lookupDict at ih ⊢
      rw [List.find?_cons_of_neg _ (by simpa using h)]
      exact ih

theorem lookupDict_dictInsert_other {β : Type} (m : List (String × β))
    (k k' : String) (v : β) (h : k ≠ k') :
    lookupDict (dictInsert m k v) k' = lookupDict m k' := by
  induction m with
  | nil =>
    simp only [dictInsert]
    unfold lookupDict
    rw [List.find?_cons_of_neg _ (by simpa using h)]
  | cons hd tl ih =>
    obtain ⟨k0, v0⟩ := hd
    by_cases h0 : k0 = k
    · subst h0
      have hd1 : dictInsert ((k0, v0) :: tl) k0 v = (k0, v) :: tl := by
        simp [dictInsert]
      rw [hd1]
      unfold lookupDict
      rw [List.find?_cons_of_neg _ (by simpa using h),
        List.find?_cons_of_neg _ (by simpa using h)]
    · have hd1 : dictInsert ((k0, v0) :: tl) k v
          = (k0, v0) :: dictInsert tl k v := by
        simp [dictInsert, h0]
      rw [hd1]
      unfold lookupDict at ih ⊢
      by_cases hk' : k0 = k'
      · subst hk'
        rw [List.find?_cons_of_pos _ (by simp), List.find?_cons_of_pos _ (by simp)]
      · rw [List.find?_cons_of_neg _ (by simpa using hk'),
          List.find?_cons_of_neg _ (by simpa using hk')]
        exact ih

theorem lookupDict_foldl {α β : Type} (key : α → String) (val : α → β)
    (k : String) :
    ∀ (l : List α) (m : List (String × β)),
      lookupDict (l.foldl (fun m e => dictInsert m (key e) (val e)) m) k
        = (match (l.filter (fun e => key e = k)).getLast? with
           | some e => some (val e)
           | none => lookupDict m k) := by
  intro l
  induction l with
  | nil => intro m; simp
  | cons e l ih =>
    intro m
    rw [List.foldl_cons, ih, List.filter_cons]
    by_cases hk : key e = k
    · rw [if_pos (by simpa using hk)]
      cases hlast : (l.filter (fun e => key e = k)).getLast? with
      | some e2 =>
        cases hfl : l.filter (fun e => key e = k) with
        | nil => rw [hfl] at hlast; simp at hlast
        | cons x xs =>
          rw [hfl] at hlast
          rw [List.getLast?_cons_cons, hlast]
      | none =>
        have hfl : l.filter (fun e => key e = k) = [] := by
          cases hfl : l.filter (fun e => key e = k) with
          | nil => rfl
          | cons x xs =>
            rw [hfl] at hlast
            exact absurd hlast (by simp [List.getLast?])
        rw [hfl]
        subst hk
        simp [lookupDict_dictInsert_self]
    · rw [if_neg (by simpa using hk)]
      cases hlast : (l.filter (fun e => key e = k)).getLast? with
      | some e2 => rfl
      | none => exact lookupDict_dictInsert_other m (key e) k (val e) hk

/-- Characterization of `dictOfList` lookups: the last entity whose key
matches wins; a key no entity carries is absent. -/
theorem lookupDict_dictOfList {α β : Type} (key : α → String) (val : α → β)
    (l : List α) (k : String) :
    lookupDict (dictOfList key val l) k
      = ((l.filter (fun e => key e = k)).getLast?).map val := by
  unfold dictOfList
  rw [lookupDict_foldl]
  cases (l.filter (fun e => key e = k)).getLast? with
  | some e => rfl
  | none => simp [lookupDict]

/-- C3 amended: `get_project_icon` returns the stored
`project.get('icon', '')` of the last project entity carrying the title
— so a project present without an icon field yields the empty string,
not the folder glyph — and the folder glyph `📁` appears only for titles
no project entity carries; the display name is always icon ++ `" "` ++
title. -/
theorem c3_icon_resolution (ents : List (String × RawProject)) (name : String) :
    get_project_icon ents name
      = (match (ents.filter (fun p => p.2.title.getD "" = name)).getLast? with
         | some p => p.2.icon.getD ""
         | none => "📁")
  ∧ get_project_display_name ents name
      = get_project_icon ents name ++ " " ++ name := by
  constructor
  · unfold get_project_icon projectIcons
    rw [lookupDict_dictOfList]
    cases (ents.filter (fun p => p.2.title.getD "" = name)).getLast? with
    | some p => rfl
    | none => rfl
  · rfl

/-- C3 counterexample input: a project titled "Work" with no icon
field. -/
def c3Ents : List (String × RawProject) :=
  [("p1", { id := "p1", title := some "Work", theme := none, icon := none })]

/-- C3 counterexample: for an existing project without an icon field the
icon lookup returns the stored empty string, not the folder glyph, and
the display name is `" Work"`, not the claimed `"📁 Work"`. -/
theorem c3_counterexample :
    get_project_icon c3Ents "Work" = ""
  ∧ get_project_display_name c3Ents "Work" = " Work"
  ∧ get_project_display_name c3Ents "Work" ≠ "📁 Work" := by
  refine ⟨by decide, by decide, by decide⟩

/-- C8: color resolution is total.  Lookups are characterized by the
last entity carrying the title: its extracted primary color when one
exists, the default `#636efa` otherwise; extraction returns the theme's
primary exactly when it is a non-empty string starting with `#`, else
the default; and every result starts with `#` (the function never
raises, being total by construction). -/
theorem c8_color_resolution (pents : List (String × RawProject))
    (tents : List (String × RawTag)) (name : String) :
    (get_project_color pents name
      = match (pents.filter (fun p => p.2.title.getD "" = name)).getLast? with
        | some p => extractPrimaryColor p.2.theme
        | none => "#636efa")
  ∧ (get_tag_color tents name
      = match (tents.filter (fun p => p.2.title = name)).getLast? with
        | some p => extractPrimaryColor p.2.theme
        | none => "#636efa")
  ∧ startsWithHash (get_project_color pents name) = true
  ∧ startsWithHash (get_tag_color tents name) = true
  ∧ (∀ (th : RawTheme) (c : String), th.primary = some c → c ≠ "" →
      startsWithHash c = true → extractPrimaryColor (some th) = c)
  ∧ (∀ th : RawTheme,
      (∀ c, th.primary = some c → c = "" ∨ startsWithHash c = false) →
      extractPrimaryColor (some th) = "#636efa")
  ∧ extractPrimaryColor none = "#636efa" := by
  have hstart : ∀ th : Option RawTheme,
      startsWithHash (extractPrimaryColor th) = true := by
    intro th
    match th with
    | none => decide
    | some th0 =>
      match h : th0.primary with
      | none => simp [extractPrimaryColor, h]; decide
      | some p =>
        simp only [extractPrimaryColor, h]
        by_cases hc : p ≠ "" ∧ startsWithHash p = true
        · rw [if_pos hc]; exact hc.2
        · rw [if_neg hc]; decide
  have hproj : get_project_color pents name
      = match (pents.filter (fun p => p.2.title.getD "" = name)).getLast? with
        | some p => extractPrimaryColor p.2.theme
        | none => "#636efa" := by
    unfold get_project_color projectColors
    rw [lookupDict_dictOfList]
    cases (pents.filter (fun p => p.2.title.getD "" = name)).getLast? with
    | some p => rfl
    | none => rfl
  have htag : get_tag_color tents name
      = match (tents.filter (fun p => p.2.title = name)).getLast? with
        | some p => extractPrimaryColor p.2.theme
        | none => "#636efa" := by
    unfold get_tag_color tagColors
    rw [lookupDict_dictOfList]
    cases (tents.filter (fun p => p.2.title = name)).getLast? with
    | some p => rfl
    | none => rfl
  refine ⟨hproj, htag, ?_, ?_, ?_, ?_, rfl⟩
  · rw [hproj]
    cases (pents.filter (fun p => p.2.title.getD "" = name)).getLast? with
    | some p => exact hstart _
    | none => decide
  · rw [htag]
    cases (tents.filter (fun p => p.2.title = name)).getLast? with
    | some p => exact hstart _
    | none => decide
  · intro th c hc hne hhash
    simp [extractPrimaryColor, hc, hne, hhash]
  · intro th hbad
    match h : th.primary with
    | none => simp [extractPrimaryColor, h]
    | some c =>
      simp only [extractPrimaryColor, h]
      rcases hbad c h with h1 | h1
      · rw [if_neg (by simp [h1])]
      · rw [if_neg (by simp [h1])]

/-- C8 witness input: a themed project and an unthemed tag sharing the
data set. -/
def c8Ents : List (String × RawProject) :=
  [("p1", { id := "p1", title := some "Work",
            theme := some { primary := some "#ff0000" }, icon := none })]

def c8Tags : List (String × RawTag) :=
  [("tg1", { id := "tg1", title := "deep", theme := none, icon := none })]

/-- Witness for C8 at concrete data: the themed project's color is its
primary, an unknown title gets the default, and the extraction
conjuncts hold at the concrete theme. -/
theorem c8_witness :
    get_project_color c8Ents "Work" = "#ff0000"
  ∧ get_project_color c8Ents "unknown-title" = "#636efa"
  ∧ get_tag_color c8Tags "deep" = "#636efa"
  ∧ extractPrimaryColor (some { primary := some "#ff0000" }) = "#ff0000" := by
  have h1 := (c8_color_resolution c8Ents c8Tags "Work").1
  have h2 := (c8_color_resolution c8Ents c8Tags "unknown-title").1
  have h3 := (c8_color_resolution c8Ents c8Tags "deep").2.1
  have h4 := (c8_color_resolution c8Ents c8Tags "Work").2.2.2.2.1
    { primary := some "#ff0000" } "#ff0000" rfl (by decide) (by decide)
  refine ⟨?_, ?_, ?_, h4⟩
  · rw [h1]; decide
  · rw [h2]; decide
  · rw [h3]; decide

/-- JSON value as the loader sees it: an object mapping keys to values.
The backup format is an object at every level the loader inspects
(`validate_super_productivity_file` only asks whether keys are present),
so non-object values are outside the embedding's domain. -/
inductive Json where
  | obj : List (String × Json) → Json

def Json.lookup : Json → String → Option Json
  | .obj kvs, k => (kvs.find? (fun p => p.1 = k)).map (·.2)

/-- Presence of both required entity collections
(`expected_entities = ['task', 'project']`). -/
def Json.hasBoth (j : Json) : Bool :=
  (j.lookup "task").isSome && (j.lookup "project").isSome

/-- A file visible to the loader: directory, file name, filesystem
modification time, and its parse result (`none` when `json.load` would
raise `JSONDecodeError`). -/
structure FileEnt where
  dir : String
  name : String
  mtime : ℕ
  parsed : Option Json

/-- The observable filesystem: which directories exist, and the files. -/
structure FS where
  dirs : List String
  files : List FileEnt

/-- Glob matching for the loader's patterns (`*` wildcards only, as in
`*.json` and `super-productivity-backup*.json`). -/
def globMatchAux : ℕ → List Char → List Char → Bool
  | 0, _, _ => false
  | fuel + 1, ps, cs =>
    match ps, cs with
    | [], [] => true
    | '*' :: ps2, [] => globMatchAux fuel ps2 []
    | '*' :: ps2, c :: cs2 =>
        globMatchAux fuel ps2 (c :: cs2) || globMatchAux fuel ('*' :: ps2) cs2
    | p :: ps2, c :: cs2 => (p = c) && globMatchAux fuel ps2 cs2
    | _ :: _, [] => false
    | [], _ :: _ => false

def globMatch (ps cs : List Char) : Bool :=
  globMatchAux (ps.length + cs.length + 1) ps cs

def matchesLoc (f : FileEnt) (loc : String × String) : Bool :=
  (f.dir = loc.1) && globMatch loc.2.data f.name.data

/-- `self.search_locations` (`io/data_loader.py` lines 14-18). -/
def search_locations : List (String × String) :=
  [("C:\\Users\\redaa\\AppData\\Roaming\\superProductivity\\backups", "*.json"),
   ("C:\\Users\\redaa\\Downloads", "super-productivity-backup*.json"),
   (".", "super-productivity-backup*.json")]

/-- `find_json_files`: every existing location contributes its matching
files (locations in order, a missing directory is skipped). -/
def find_json_files (locs : List (String × String)) (fs : FS) : List FileEnt :=
  locs.flatMap (fun loc =>
    if loc.1 ∈ fs.dirs then fs.files.filter (fun f => matchesLoc f loc) else [])

/-- `get_most_recent_file`: `sorted(..., key=mtime, reverse=True)[0]`;
Python's sort is stable, so among equal mtimes the earliest listed file
wins, i.e. the fold replaces the best only on a strictly larger mtime. -/
def get_most_recent_file : List FileEnt → Option FileEnt
  | [] => none
  | f :: rest =>
      some (rest.foldl (fun best g => if best.mtime < g.mtime then g else best) f)

/-- `validate_super_productivity_file`: parseable, and both collections
present at top level or under `data`; a parse failure is caught and
reported as invalid. -/
def validate_file (f : FileEnt) : Bool :=
  match f.parsed with
  | none => false
  | some j =>
      j.hasBoth ||
      (match j.lookup "data" with
       | some dj => dj.hasBoth
       | none => false)

inductive LoadErr where
  | notFound
  | invalidFormat
deriving DecidableEq

/-- `load_data` (`io/data_loader.py` lines 70-96): `FileNotFoundError`
when no candidate matches; `ValueError` when validation fails (not
parseable, or collections missing both at top level and under `data`);
otherwise the parsed object, wrapped as `{'data': data}` exactly when it
has both top-level collections and no `data` key. -/
def load_data (locs : List (String × String)) (fs : FS) : Except LoadErr Json :=
  match get_most_recent_file (find_json_files locs fs) with
  | none => .error .notFound
  | some f =>
      if validate_file f then
        match f.parsed with
        | some j =>
            if j.hasBoth && (j.lookup "data").isNone
            then .ok (Json.obj [("data", j)])
            else .ok j
        | none => .error .invalidFormat
      else .error .invalidFormat

theorem get_most_recent_file_eq_none (l : List FileEnt) :
    get_most_recent_file l = none ↔ l = [] := by
  cases l <;> simp [get_most_recent_file]

theorem load_data_of_none (locs : List (String × String)) (fs : FS)
    (hg : get_most_recent_file (find_json_files locs fs) = none) :
    load_data locs fs = .error .notFound := by
  unfold load_data
  rw [hg]

theorem load_data_of_some (locs : List (String × String)) (fs : FS)
    (f : FileEnt)
    (hg : get_most_recent_file (find_json_files locs fs) = some f) :
    load_data locs fs
      = (if validate_file f then
          match f.parsed with
          | some j =>
              if j.hasBoth && (j.lookup "data").isNone
              then .ok (Json.obj [("data", j)])
              else .ok j
          | none => .error .invalidFormat
        else .error .invalidFormat) := by
  unfold load_data
  rw [hg]

theorem validate_file_of_parsed (f : FileEnt) (j : Json)
    (hp : f.parsed = some j) :
    validate_file f
      = (j.hasBoth ||
         (match j.lookup "data" with
          | some dj => dj.hasBoth
          | none => false)) := by
  unfold validate_file
  rw [hp]

theorem validate_file_of_unparsed (f : FileEnt) (hp : f.parsed = none) :
    validate_file f = false := by
  unfold validate_file
  rw [hp]

theorem load_data_of_parsed (locs : List (String × String)) (fs : FS)
    (f : FileEnt) (j : Json)
    (hg : get_most_recent_file (find_json_files locs fs) = some f)
    (hp : f.parsed = some j) :
    load_data locs fs
      = (if validate_file f then
          (if j.hasBoth && (j.lookup "data").isNone
           then .ok (Json.obj [("data", j)])
           else .ok j)
        else .error .invalidFormat) := by
  rw [load_data_of_some locs fs f hg]
  by_cases hv : validate_file f = true
  · rw [if_pos hv, if_pos hv, hp]
  · rw [if_neg hv, if_neg hv]

/-- C5 amended: the loader errors with not-found iff no file matches any
search location; it errors with invalid-format when the selected file is
unparseable or lacks the two collections both at top level and under
`data`; and a normal return carries both collections under `data`
unless the file had both at top level together with a `data` key, in
which case the file's object is returned unchanged. -/
theorem c5_loader_taxonomy (locs : List (String × String)) (fs : FS) :
    (load_data locs fs = .error .notFound ↔ find_json_files locs fs = [])
  ∧ (∀ f, get_most_recent_file (find_json_files locs fs) = some f →
      f.parsed = none → load_data locs fs = .error .invalidFormat)
  ∧ (∀ f j, get_most_recent_file (find_json_files locs fs) = some f →
      f.parsed = some j → j.hasBoth = false →
      (match j.lookup "data" with
       | some dj => dj.hasBoth = false
       | none => True) →
      load_data locs fs = .error .invalidFormat)
  ∧ (∀ r, load_data locs fs = .ok r →
      (∃ dj, r.lookup "data" = some dj ∧ dj.hasBoth = true)
      ∨ (∃ f j, get_most_recent_file (find_json_files locs fs) = some f
          ∧ f.parsed = some j ∧ j.hasBoth = true
          ∧ (j.lookup "data").isSome = true ∧ r = j)) := by
  refine ⟨?_, ?_, ?_, ?_⟩
  · cases hg : get_most_recent_file (find_json_files locs fs) with
    | none =>
      rw [load_data_of_none locs fs hg]
      rw [get_most_recent_file_eq_none] at hg
      simp [hg]
    | some f =>
      constructor
      · intro h
        exfalso
        cases hp : f.parsed with
        | none =>
          rw [load_data_of_some locs fs f hg, validate_file_of_unparsed f hp] at h
          rw [if_neg (by simp)] at h
          cases h
        | some j =>
          rw [load_data_of_parsed locs fs f j hg hp] at h
          by_cases hv : validate_file f = true
          · rw [if_pos hv] at h
            by_cases hc : (j.hasBoth && (j.lookup "data").isNone) = true
            · rw [if_pos hc] at h; cases h
            · rw [if_neg hc] at h; cases h
          · rw [if_neg hv] at h; cases h
      · intro h
        rw [← get_most_recent_file_eq_none] at h
        rw [h] at hg
        cases hg
  · intro f hg hp
    rw [load_data_of_some locs fs f hg, validate_file_of_unparsed f hp]
    rw [if_neg (by simp)]
  · intro f j hg hp htop hdata
    rw [load_data_of_parsed locs fs f j hg hp]
    have hv : validate_file f = false := by
      rw [validate_file_of_parsed f j hp, htop]
      cases hl : j.lookup "data" with
      | none => rfl
      | some dj =>
        rw [hl] at hdata
        have hd2 : dj.hasBoth = false := hdata
        simp [hd2]
    rw [if_neg (by simp [hv])]
  · intro r h
    cases hg : get_most_recent_file (find_json_files locs fs) with
    | none => rw [load_data_of_none locs fs hg] at h; cases h
    | some f =>
      cases hp : f.parsed with
      | none =>
        rw [load_data_of_some locs fs f hg, validate_file_of_unparsed f hp,
          if_neg (by simp)] at h
        cases h
      | some j =>
        rw [load_data_of_parsed locs fs f j hg hp] at h
        by_cases hv : validate_file f = true
        · rw [if_pos hv] at h
          by_cases hc : (j.hasBoth && (j.lookup "data").isNone) = true
          · rw [if_pos hc] at h
            left
            have hr : r = Json.obj [("data", j)] := (Except.ok.inj h).symm
            refine ⟨j, ?_, (Bool.and_eq_true _ _ |>.mp hc).1⟩
            rw [hr]
            rfl
          · rw [if_neg hc] at h
            have hr : r = j := (Except.ok.inj h).symm
            have hval := hv
            rw [validate_file_of_parsed f j hp] at hval
            by_cases hb : j.hasBoth = true
            · right
              refine ⟨f, j, rfl, hp, hb, ?_, hr⟩
              by_cases hn : (j.lookup "data").isNone = true
              · exact absurd (by simp [hb, hn] : (j.hasBoth && (j.lookup "data").isNone) = true) hc
              · simpa [Option.isNone_iff_eq_none, Option.isSome_iff_ne_none] using hn
            · left
              rw [Bool.or_eq_true] at hval
              rcases hval with h1 | h1
              · exact absurd h1 hb
              · cases hl : j.lookup "data" with
                | none => rw [hl] at h1; cases h1
                | some dj =>
                  rw [hl] at h1
                  exact ⟨dj, by rw [hr]; exact hl, h1⟩
        · rw [if_neg hv] at h
          cases h

/-- C5 counterexample input: one matching file in `.` whose object has
top-level `task` and `project` collections and also a `data` key whose
section is empty. -/
def c5Json : Json :=
  Json.obj [("task", Json.obj []), ("project", Json.obj []),
            ("data", Json.obj [])]

def c5FS : FS :=
  { dirs := ["."]
    files := [{ dir := ".", name := "super-productivity-backup.json"
                mtime := 100, parsed := some c5Json }] }

/-- C5 counterexample: the loader returns this file unchanged, and the
returned object's `data` section lacks the entity collections, so
"when it returns normally, the result contains both collections under
its `data` key" fails. -/
theorem c5_counterexample :
    load_data search_locations c5FS = .ok c5Json
  ∧ (c5Json.lookup "data" = some (Json.obj []))
  ∧ (Json.obj []).hasBoth = false := by
  refine ⟨rfl, rfl, rfl⟩

/-- Witness for C5 at concrete inputs: an empty filesystem gives
not-found, an unparseable file gives invalid-format, and a wrapped-form
return carries both collections under `data`. -/
theorem c5_witness :
    load_data search_locations { dirs := [], files := [] }
      = .error .notFound
  ∧ load_data search_locations
      { dirs := ["."]
        files := [{ dir := ".", name := "super-productivity-backup.json"
                    mtime := 5, parsed := none }] }
      = .error .invalidFormat
  ∧ (∃ dj, (Json.obj [("data", Json.obj [("task", Json.obj []),
        ("project", Json.obj [])])]).lookup "data" = some dj
      ∧ dj.hasBoth = true) := by
  refine ⟨?_, ?_, ?_⟩
  · exact (c5_loader_taxonomy search_locations
      { dirs := [], files := [] }).1.mpr rfl
  · exact (c5_loader_taxonomy search_locations _).2.1
      { dir := ".", name := "super-productivity-backup.json"
        mtime := 5, parsed := none } rfl rfl
  · exact ⟨Json.obj [("task", Json.obj []), ("project", Json.obj [])], rfl, rfl⟩

/-- Decimal digits of a natural number (fuel-structural so that concrete
values evaluate in the kernel; the fuel `n + 1` always suffices). -/
def natDigitsAux : ℕ → ℕ → List Char
  | 0, _ => []
  | fuel + 1, n =>
      if n = 0 then [] else natDigitsAux fuel (n / 10) ++ [Char.ofNat (48 + n % 10)]

def natToStr (n : ℕ) : String :=
  if n = 0 then "0" else String.mk (natDigitsAux (n + 1) n)

def intToStr (i : ℤ) : String :=
  if i < 0 then "-" ++ natToStr (-i).toNat else natToStr i.toNat

/-- Python `round()`: round half to even (banker's rounding). -/
def pyRound (q : ℚ) : ℤ :=
  let f := ⌊q⌋
  if q - f < 1 / 2 then f
  else if 1 / 2 < q - f then f + 1
  else if f % 2 = 0 then f else f + 1

/-- `minutes_to_hm_str` (`utils/helpers.py`): `int(round(minutes))`,
split by Python floor division into hours and minutes, rendered
`"Xh Ym"` when the hour part is positive, else `"Ym"`. -/
def minutes_to_hm_str (minutes : ℚ) : String :=
  let m := pyRound minutes
  let h := Int.fdiv m 60
  let mm := Int.fmod m 60
  if 0 < h then intToStr h ++ "h " ++ intToStr mm ++ "m"
  else intToStr mm ++ "m"

/-- A simple-counter entity: only `countOnDay` is read
(`counter.get('countOnDay', {})`, absent key defaulting to the empty
map).  Counts are JSON numbers (units for water, milliseconds for media
and workout). -/
structure Counter where
  countOnDay : Option (List (String × ℚ))
deriving DecidableEq

/-- The three hardcoded counter identifiers
(`viz/plots.py` lines 274, 304, 345). -/
def waterId : String := "wQuxogx-iByRYzzw9_LdZ"

def mediaId : String := "a53564Qzc3w2LHXE6c-1_"

def workoutId : String := "dD4T3Ulg16FpTqlkwTtpq"

def lookupCounter (scs : List (String × Counter)) (i : String) :
    Option Counter :=
  (scs.find? (fun p => p.1 = i)).map (·.2)

/-- Data content of the water bar chart: dates, liters (1 unit = 1 L),
and per-bar colors (green at ≥ 2 L, else red). -/
structure WaterFig where
  dates : List ℕ
  liters : List ℚ
  colors : List String
deriving DecidableEq

/-- Data content of the media bar chart: hours (ms / 3,600,000), per-bar
colors (green under 4 h), and the human-readable durations. -/
structure MediaFig where
  dates : List ℕ
  hours : List ℚ
  colors : List String
  hmStrs : List String
deriving DecidableEq

/-- Data content of the workout bar chart (single green bar color). -/
structure WorkoutFig where
  dates : List ℕ
  hours : List ℚ
  hmStrs : List String
deriving DecidableEq

structure CounterFigs where
  water : WaterFig
  media : MediaFig
  workout : WorkoutFig
deriving DecidableEq

/-- `create_simple_counter_plots` (`viz/plots.py` lines 261-380): the
three widgets are built in sequence inside one function; each hardcoded
identifier is looked up with `simple_counters[...]`, and a missing key
raises `KeyError` (modelled as `Except.error` carrying the missing id),
aborting the whole function — widgets after the missing one are never
built. -/
def create_simple_counter_plots (scs : List (String × Counter)) :
    Except String CounterFigs :=
  match lookupCounter scs waterId with
  | none => .error waterId
  | some wc =>
      let wdata := wc.countOnDay.getD []
      let water : WaterFig :=
        { dates := wdata.map (fun p => parseDate p.1)
          liters := wdata.map (fun p => p.2 * 1)
          colors := wdata.map
            (fun p => if (2 : ℚ) ≤ p.2 * 1 then "#2ca02c" else "#d62728") }
      match lookupCounter scs mediaId with
      | none => .error mediaId
      | some mc =>
          let mdata := mc.countOnDay.getD []
          let media : MediaFig :=
            { dates := mdata.map (fun p => parseDate p.1)
              hours := mdata.map (fun p => p.2 / 1000 / 60 / 60)
              colors := mdata.map
                (fun p => if p.2 / 1000 / 60 / 60 < 4 then "#2ca02c" else "#d62728")
              hmStrs := mdata.map
                (fun p => minutes_to_hm_str (p.2 / 1000 / 60 / 60 * 60)) }
          match lookupCounter scs workoutId with
          | none => .error workoutId
          | some kc =>
              let kdata := kc.countOnDay.getD []
              .ok { water := water
                    media := media
                    workout :=
                      { dates := kdata.map (fun p => parseDate p.1)
                        hours := kdata.map (fun p => p.2 / 1000 / 60 / 60)
                        hmStrs := kdata.map
                          (fun p => minutes_to_hm_str (p.2 / 1000 / 60 / 60 * 60)) } }

/-- C7 amended: a missing hardcoded counter identifier makes the whole
counter-plot construction fail with a lookup error for the first missing
identifier in water → media → workout order, building no widget dict at
all; the error propagates out of the function instead of being isolated
to the one widget.  When all three identifiers are present the
construction succeeds. -/
theorem c7_counter_failure (scs : List (String × Counter)) :
    (lookupCounter scs waterId = none →
      create_simple_counter_plots scs = .error waterId)
  ∧ (∀ wc, lookupCounter scs waterId = some wc →
      lookupCounter scs mediaId = none →
      create_simple_counter_plots scs = .error mediaId)
  ∧ (∀ wc mc, lookupCounter scs waterId = some wc →
      lookupCounter scs mediaId = some mc →
      lookupCounter scs workoutId = none →
      create_simple_counter_plots scs = .error workoutId)
  ∧ (∀ wc mc kc, lookupCounter scs waterId = some wc →
      lookupCounter scs mediaId = some mc →
      lookupCounter scs workoutId = some kc →
      ∃ figs, create_simple_counter_plots scs = .ok figs) := by
  refine ⟨?_, ?_, ?_, ?_⟩
  · intro hw
    unfold create_simple_counter_plots
    rw [hw]
  · intro wc hw hm
    unfold create_simple_counter_plots
    rw [hw, hm]
  · intro wc mc hw hm hk
    unfold create_simple_counter_plots
    rw [hw, hm, hk]
  · intro wc mc kc hw hm hk
    unfold create_simple_counter_plots
    rw [hw, hm, hk]
    exact ⟨_, rfl⟩

/-- C7 counterexample input: media and workout counters present, the
water identifier absent. -/
def c7SCs : List (String × Counter) :=
  [(mediaId, { countOnDay := some [("2024-01-01", 7200000)] }),
   (workoutId, { countOnDay := some [("2024-01-01", 3600000)] })]

/-- C7 counterexample: with the water identifier absent the whole
construction returns the lookup error — no widget dict is produced, so
the media and workout widgets are not built either, contradicting
"the construction of the other counter widgets and the rest of the
render still succeeds". -/
theorem c7_counterexample :
    create_simple_counter_plots c7SCs = .error waterId := by
  rfl

/-- All three counters present, for the C7 witness. -/
def c7AllSCs : List (String × Counter) :=
  [(waterId, { countOnDay := some [("2024-01-01", 2)] }),
   (mediaId, { countOnDay := some [("2024-01-01", 7200000)] }),
   (workoutId, { countOnDay := some [("2024-01-01", 3600000)] })]

/-- Witness for C7: the water-absent input errors with the water id, and
the all-present input succeeds. -/
theorem c7_witness :
    create_simple_counter_plots c7SCs = .error waterId
  ∧ ∃ figs, create_simple_counter_plots c7AllSCs = .ok figs :=
  ⟨(c7_counter_failure c7SCs).1 rfl,
   (c7_counter_failure c7AllSCs).2.2.2 _ _ _ rfl rfl rfl⟩

end SPDash

